import Mathlib

/-!
Shallow embedding of the question-service core from `src/main.rs`:
the store of questions (a `HashMap<QuestionId, Question>` behind a lock,
modelled as an association list in iteration order), the pagination
validator `extract_pagination`, the listing handler `get_questions`, the
insert handler `add_question`, and the boundary error classifier
`return_error`.  Machine integers (`usize`) are modelled as `Nat` with the
explicit bound `USIZE_MAX` where Rust's parser checks overflow; fallible
steps return `Except`; the slice expression `&res[a..b]`, which aborts the
task when the bounds are invalid, is modelled by an `Option`-returning
slice function whose `none` case is the out-of-bounds abort.
-/

/-- `struct QuestionId(String)` (main.rs line 15): a string-wrapped id.
Equality is by the underlying string value. -/
structure QuestionId where
  val : String
  deriving DecidableEq, Repr

/-- `struct Question` (main.rs lines 6-12): id, title, content, optional tags. -/
structure Question where
  id : QuestionId
  title : String
  content : String
  tags : Option (List String)
  deriving DecidableEq, Repr

/-- The store contents: `HashMap<QuestionId, Question>` (main.rs line 82),
modelled as an association list of key-value pairs in iteration order. -/
abbrev StoreMap := List (QuestionId × Question)

/-- `Except` values are compared structurally. -/
instance {ε α : Type} [DecidableEq ε] [DecidableEq α] : DecidableEq (Except ε α) := fun x y =>
  match x, y with
  | .ok a, .ok b =>
    if h : a = b then .isTrue (congrArg Except.ok h)
    else .isFalse (fun he => h (Except.ok.inj he))
  | .error a, .error b =>
    if h : a = b then .isTrue (congrArg Except.error h)
    else .isFalse (fun he => h (Except.error.inj he))
  | .ok _, .error _ => .isFalse (fun he => Except.noConfusion he)
  | .error _, .ok _ => .isFalse (fun he => Except.noConfusion he)

/-- `HashMap::values()` as used on main.rs lines 34 and 47: the snapshot
sequence of all stored questions, in iteration order. -/
def values (s : StoreMap) : List Question := s.map Prod.snd

/-- The map's key set, in iteration order. -/
def keys (s : StoreMap) : List QuestionId := s.map Prod.fst

/-- `HashMap::contains_key`-style test: is `k` a key of `s`? -/
def containsKey (s : StoreMap) (k : QuestionId) : Bool :=
  s.any (fun p => p.1 == k)

/-- `HashMap::insert(k, v)` (main.rs line 56): if the key is present the
entry is overwritten in place, otherwise a new entry is added. -/
def insertQ (s : StoreMap) (k : QuestionId) (v : Question) : StoreMap :=
  if containsKey s k then
    s.map (fun p => if p.1 == k then (k, v) else p)
  else
    s ++ [(k, v)]

/-- The key-value coherence invariant of the store: every entry's key is
the id of the question it maps to. -/
def Coherent (s : StoreMap) : Prop := ∀ p ∈ s, p.1 = p.2.id

instance (s : StoreMap) : Decidable (Coherent s) :=
  inferInstanceAs (Decidable (∀ p ∈ s, p.1 = p.2.id))

/-- The error kinds of `std::num::ParseIntError` reachable from
`str::parse::<usize>`: empty input, non-digit character (which includes
any `-`-prefixed string, since the sign is only consumed for signed
targets), and overflow past `usize::MAX`. -/
inductive ParseIntError where
  | empty
  | invalidDigit
  | posOverflow
  deriving DecidableEq, Repr

/-- `usize::MAX` on the 64-bit target. -/
def USIZE_MAX : Nat := 2 ^ 64 - 1

/-- The digit-accumulation loop of `usize::from_str`: each character must
be an ASCII digit, and the accumulator may not exceed `usize::MAX`. -/
def parsePosDigits : List Char → Nat → Except ParseIntError Nat
  | [], acc => .ok acc
  | c :: rest, acc =>
    if c.isDigit then
      let n := acc * 10 + (c.toNat - 48)
      if n > USIZE_MAX then .error .posOverflow
      else parsePosDigits rest n
    else .error .invalidDigit

/-- `str::parse::<usize>()` as called on main.rs lines 134-135: an
optional single leading `+` sign, then base-10 digits, with overflow
checking.  `from_str_radix` consumes a leading `-` only for signed
targets, so for `usize` a `-`-prefixed string reaches the digit loop with
the `-` still in place and fails with `invalidDigit`. -/
def parseUsize (s : String) : Except ParseIntError Nat :=
  match s.data with
  | [] => .error .empty
  | c :: rest =>
    if c = '+' then
      if rest = [] then .error .invalidDigit else parsePosDigits rest 0
    else
      parsePosDigits (c :: rest) 0

/-- `enum Error` (main.rs lines 102-107): the service's error taxonomy.
`ParseError` carries the integer-parse failure. -/
inductive Error where
  | ParseError (e : ParseIntError)
  | MissingParameter
  | InvalidArgumentsOrder
  deriving DecidableEq, Repr

/-- The constructor name of an `Error` value. -/
def errorKindName : Error → String
  | .ParseError _ => "ParseError"
  | .MissingParameter => "MissingParameter"
  | .InvalidArgumentsOrder => "InvalidArgumentsOrder"

/-- The names of the constructors of `enum Error` (main.rs lines 102-107):
the complete list of error kinds the code defines. -/
def codeErrorKindNames : List String :=
  ["ParseError", "MissingParameter", "InvalidArgumentsOrder"]

/-- The `Display` text of `std::num::ParseIntError` for each kind. -/
def parseIntErrorMessage : ParseIntError → String
  | .empty => "cannot parse integer from empty string"
  | .invalidDigit => "invalid digit found in string"
  | .posOverflow => "number too large to fit in target type"

/-- `impl Display for Error` (main.rs lines 109-119): the descriptive text
of each error kind. -/
def errorMessage : Error → String
  | .ParseError e => "Cannot parse parameter: " ++ parseIntErrorMessage e
  | .MissingParameter => "Missing parameter"
  | .InvalidArgumentsOrder =>
      "Order of arguments is invalid. \x27Start\x27 cannot be greater than \x27end\x27"

/-- `struct Pagination` (main.rs lines 123-127). `end` is a Lean keyword,
so the field is spelt `pend` here. -/
structure Pagination where
  start : Nat
  pend : Nat
  deriving DecidableEq, Repr

/-- The query-parameter mapping (`HashMap<String, String>`), modelled as an
association list; `lookup` returns the value of the first matching key. -/
abbrev Params := List (String × String)

/-- `extract_pagination` (main.rs lines 129-145): require both `start` and
`end`, parse each as `usize` (start first), and require `end >= start`. -/
def extract_pagination (params : Params) : Except Error Pagination :=
  match List.lookup "start" params, List.lookup "end" params with
  | some startStr, some endStr =>
    match parseUsize startStr with
    | .error e => .error (.ParseError e)
    | .ok start =>
      match parseUsize endStr with
      | .error e => .error (.ParseError e)
      | .ok pend =>
        if pend ≥ start then .ok ⟨start, pend⟩
        else .error .InvalidArgumentsOrder
  | _, _ => .error .MissingParameter

/-- Rust slice indexing `&l[a..b]`: defined when `a ≤ b ≤ l.length`, in
which case it is the half-open window `[a, b)`; otherwise the expression
aborts the task (index out of bounds), modelled as `none`. -/
def listSlice {α : Type} (l : List α) (a b : Nat) : Option (List α) :=
  if a ≤ b ∧ b ≤ l.length then some ((l.drop a).take (b - a)) else none

/-- Outcome of the listing handler: a JSON reply with a question list, a
rejection carrying an `Error`, or an out-of-bounds abort of the slice. -/
inductive GetResult where
  | ok (questions : List Question)
  | err (e : Error)
  | indexOutOfBounds
  deriving DecidableEq, Repr

/-- `get_questions` (main.rs lines 23-50).  With a non-empty parameter map
it validates pagination (propagating any error with `?`), snapshots the
store under a read lock, clamps `end` to the snapshot length and slices
`[start, end_index)`; with an empty map it returns the full snapshot.  The
handler only reads the store, so the store component is returned
unchanged. -/
def get_questions (params : Params) (store : StoreMap) : GetResult × StoreMap :=
  if !params.isEmpty then
    match extract_pagination params with
    | .error e => (.err e, store)
    | .ok pagination =>
      let res : List Question := values store
      let end_index := if pagination.pend > res.length then res.length else pagination.pend
      match listSlice res pagination.start end_index with
      | some r => (.ok r, store)
      | none => (.indexOutOfBounds, store)
  else
    (.ok (values store), store)

/-- A transport reply: status code and body text. -/
structure Reply where
  status : Nat
  body : String
  deriving DecidableEq, Repr

/-- `add_question` (main.rs lines 52-59): unconditionally insert the
question under its own id (under the write lock) and reply
`200 "Question added"`.  No validation is performed. -/
def add_question (store : StoreMap) (question : Question) : Reply × StoreMap :=
  (⟨200, "Question added"⟩, insertQ store question.id question)

/-- Fold a sequence of insert requests over the store. -/
def insertAll (store : StoreMap) (qs : List Question) : StoreMap :=
  qs.foldl (fun s q => (add_question s q).2) store

/-- The rejection reaching the recovery boundary, by the cause
`return_error` distinguishes: an application `Error`, a CORS-forbidden
rejection (with its display text), or no matched route. -/
inductive Rejection where
  | appError (e : Error)
  | corsForbidden (message : String)
  | unmatched
  deriving DecidableEq, Repr

/-- `return_error` (main.rs lines 61-77): an `Error` yields
416 (RANGE_NOT_SATISFIABLE) with the error's display text, a
`CorsForbidden` yields 403 with its text, anything else yields
404 "Route not found". -/
def return_error : Rejection → Reply
  | .appError e => ⟨416, errorMessage e⟩
  | .corsForbidden m => ⟨403, m⟩
  | .unmatched => ⟨404, "Route not found"⟩

/-- Sample store contents used for concrete witnesses: three coherent
entries, as after seeding with three questions. -/
def q1 : Question := ⟨⟨"1"⟩, "First Question", "Content of question", some ["faq"]⟩

def q2 : Question := ⟨⟨"2"⟩, "Second Question", "Content of second question", none⟩

def q3 : Question := ⟨⟨"3"⟩, "Third Question", "Content of third question", some ["general", "faq"]⟩

def sampleStore : StoreMap := [(⟨"1"⟩, q1), (⟨"2"⟩, q2), (⟨"3"⟩, q3)]

example : (values sampleStore).length = 3 := by decide

example : extract_pagination [("start", "1"), ("end", "10")] = .ok ⟨1, 10⟩ := by decide

example : (get_questions [("start", "1"), ("end", "10")] sampleStore).1 = .ok [q2, q3] := by
  decide

example : (get_questions [("start", "4"), ("end", "10")] sampleStore).1 = .indexOutOfBounds := by
  decide

example : parseUsize "abc" = .error .invalidDigit := by decide

example : parseUsize "+17" = .ok 17 := by decide

example : parseUsize "-0" = .error .invalidDigit := by decide

example : parseUsize "-1" = .error .invalidDigit := by decide

example : parseUsize "" = .error .empty := by decide

/-! ### Helper lemmas -/

theorem extract_pagination_start_le (params : Params) (p : Pagination)
    (h : extract_pagination params = .ok p) : p.start ≤ p.pend := by
  unfold extract_pagination at h
  repeat' split at h
  all_goals simp_all
  subst h
  assumption

theorem isEmpty_false_of_extract_ok (params : Params) (p : Pagination)
    (h : extract_pagination params = .ok p) : params.isEmpty = false := by
  cases params with
  | nil => simp [extract_pagination, List.lookup] at h
  | cons a l => rfl

theorem mem_insertQ_self (s : StoreMap) (k : QuestionId) (v : Question) :
    (k, v) ∈ insertQ s k v := by
  unfold insertQ
  split
  · next hc =>
    unfold containsKey at hc
    rw [List.any_eq_true] at hc
    obtain ⟨p, hp, hpk⟩ := hc
    exact List.mem_map.mpr ⟨p, hp, by simp [hpk]⟩
  · exact List.mem_append_right _ (by simp)

/-! ### Claims -/

/-- C9: a listing request with an empty query-parameter mapping succeeds
(no error is raised) and returns the full store snapshot, with no
windowing applied; every question in the store is in the returned list. -/
theorem C9_empty_params_full_snapshot (store : StoreMap) :
    get_questions [] store = (.ok (values store), store)
    ∧ ∀ p ∈ store, p.2 ∈ values store := by
  refine ⟨rfl, fun p hp => List.mem_map_of_mem Prod.snd hp⟩

theorem C9_witness :
    get_questions [] sampleStore = (.ok (values sampleStore), sampleStore)
    ∧ q1 ∈ values sampleStore :=
  ⟨(C9_empty_params_full_snapshot sampleStore).1,
   (C9_empty_params_full_snapshot sampleStore).2 (⟨"1"⟩, q1) (by decide)⟩

/-- A question payload whose id is the empty string. -/
def emptyIdQuestion : Question := ⟨⟨""⟩, "title", "content", none⟩

/-- C2 counterexample: inserting a question whose id is the empty string
does not fail with any error — `add_question` has no failure path — and
the store IS modified: the reply is `200 "Question added"` and the entry
is stored. -/
theorem C2_counterexample :
    (add_question [] emptyIdQuestion).1 = ⟨200, "Question added"⟩
    ∧ (add_question [] emptyIdQuestion).2 = [(⟨""⟩, emptyIdQuestion)]
    ∧ (add_question [] emptyIdQuestion).2 ≠ [] := by decide

/-- C2 amended: an insert request never fails — there is no id validation
and no `InvalidQuestion` error kind in the code — every payload, the empty
id included, is acknowledged with `200 "Question added"` and upserted
under its own id. -/
theorem C2_insert_always_succeeds (store : StoreMap) (q : Question) :
    (add_question store q).1 = ⟨200, "Question added"⟩
    ∧ (q.id, q) ∈ (add_question store q).2 :=
  ⟨rfl, mem_insertQ_self store q.id q⟩

/-- C7 counterexample: the code's error taxonomy has no `InvalidQuestion`
kind — `enum Error` declares only `ParseError`, `MissingParameter` and
`InvalidArgumentsOrder` — so no error of kind `InvalidQuestion` can reach
the classifier. -/
theorem C7_counterexample : "InvalidQuestion" ∉ codeErrorKindNames := by decide

/-- C7 amended: the boundary classifier maps every application error (its
kinds are exactly `ParseError`, `MissingParameter`, `InvalidArgumentsOrder`;
there is no `InvalidQuestion`) to a 416 range-not-satisfiable reply whose
body is the error's descriptive text, a cross-origin policy violation to a
403 forbidden reply, and any other unmatched rejection to a 404 not-found
reply. -/
theorem C7_error_classifier :
    (∀ e : Error, return_error (.appError e) = ⟨416, errorMessage e⟩)
    ∧ (∀ m : String, return_error (.corsForbidden m) = ⟨403, m⟩)
    ∧ return_error .unmatched = ⟨404, "Route not found"⟩
    ∧ ∀ e : Error, errorKindName e ∈ codeErrorKindNames := by
  refine ⟨fun e => rfl, fun m => rfl, rfl, fun e => ?_⟩
  cases e <;> simp [errorKindName, codeErrorKindNames]

/-- C3 counterexample: a non-empty mapping containing neither `start` nor
`end` is NOT treated as "no pagination requested": the listing fails with
`MissingParameter` instead of returning the full snapshot. -/
theorem C3_counterexample :
    (get_questions [("foo", "bar")] sampleStore).1 = .err .MissingParameter
    ∧ (get_questions [("foo", "bar")] sampleStore).1 ≠ .ok (values sampleStore) := by
  decide

/-- C3 amended: for every non-empty query-parameter mapping containing
neither the key `start` nor the key `end`, the listing request fails with
`MissingParameter` (the store is left unchanged). -/
theorem C3_neither_key_missing_parameter (params : Params) (store : StoreMap)
    (hne : params ≠ [])
    (hs : List.lookup "start" params = none)
    (he : List.lookup "end" params = none) :
    get_questions params store = (.err .MissingParameter, store) := by
  have hemp : params.isEmpty = false := by
    cases params with
    | nil => exact absurd rfl hne
    | cons a l => rfl
  simp [get_questions, hemp, extract_pagination, hs, he]

theorem C3_witness :
    get_questions [("foo", "bar")] sampleStore = (.err .MissingParameter, sampleStore) :=
  C3_neither_key_missing_parameter _ _ (by decide) (by decide) (by decide)

/-- Evaluation of the listing handler once validation has succeeded:
clamp `end` to the snapshot length and slice. -/
theorem get_questions_ok_eval (params : Params) (store : StoreMap) (p : Pagination)
    (h1 : extract_pagination params = .ok p) :
    get_questions params store =
      match listSlice (values store) p.start
          (if p.pend > (values store).length then (values store).length else p.pend) with
      | some r => (.ok r, store)
      | none => (.indexOutOfBounds, store) := by
  have hemp := isEmpty_false_of_extract_ok params p h1
  simp [get_questions, hemp, h1]

/-- C4: with both `start` and `end` present the validator parses each as a
base-10 non-negative integer (start first), failing with `ParseError`
carrying the parse failure; with both parsed and `end < start` it fails
with `InvalidArgumentsOrder`; with `end ≥ start` it succeeds with
`Pagination{start, end}`; with exactly one of the two keys present it
fails with `MissingParameter`. -/
theorem C4_extract_pagination_cases (params : Params) :
    (∀ sv ev pe, List.lookup "start" params = some sv →
      List.lookup "end" params = some ev →
      parseUsize sv = .error pe →
      extract_pagination params = .error (.ParseError pe))
    ∧ (∀ sv ev a pe, List.lookup "start" params = some sv →
      List.lookup "end" params = some ev →
      parseUsize sv = .ok a → parseUsize ev = .error pe →
      extract_pagination params = .error (.ParseError pe))
    ∧ (∀ sv ev a b, List.lookup "start" params = some sv →
      List.lookup "end" params = some ev →
      parseUsize sv = .ok a → parseUsize ev = .ok b → b < a →
      extract_pagination params = .error .InvalidArgumentsOrder)
    ∧ (∀ sv ev a b, List.lookup "start" params = some sv →
      List.lookup "end" params = some ev →
      parseUsize sv = .ok a → parseUsize ev = .ok b → a ≤ b →
      extract_pagination params = .ok ⟨a, b⟩)
    ∧ (∀ sv, List.lookup "start" params = some sv →
      List.lookup "end" params = none →
      extract_pagination params = .error .MissingParameter)
    ∧ (∀ ev, List.lookup "start" params = none →
      List.lookup "end" params = some ev →
      extract_pagination params = .error .MissingParameter) := by
  refine ⟨?_, ?_, ?_, ?_, ?_, ?_⟩
  · intro sv ev pe h1 h2 h3
    simp [extract_pagination, h1, h2, h3]
  · intro sv ev a pe h1 h2 h3 h4
    simp [extract_pagination, h1, h2, h3, h4]
  · intro sv ev a b h1 h2 h3 h4 h5
    simp [extract_pagination, h1, h2, h3, h4, Nat.not_le.mpr h5]
  · intro sv ev a b h1 h2 h3 h4 h5
    simp [extract_pagination, h1, h2, h3, h4, h5]
  · intro sv h1 h2
    simp [extract_pagination, h1, h2]
  · intro ev h1 h2
    simp [extract_pagination, h1, h2]

theorem C4_witness :
    extract_pagination [("start", "abc"), ("end", "5")]
      = .error (.ParseError .invalidDigit)
    ∧ extract_pagination [("start", "3"), ("end", "x")]
      = .error (.ParseError .invalidDigit)
    ∧ extract_pagination [("start", "7"), ("end", "5")]
      = .error .InvalidArgumentsOrder
    ∧ extract_pagination [("start", "3"), ("end", "5")] = .ok ⟨3, 5⟩
    ∧ extract_pagination [("start", "3")] = .error .MissingParameter
    ∧ extract_pagination [("end", "5")] = .error .MissingParameter :=
  ⟨(C4_extract_pagination_cases _).1 "abc" "5" .invalidDigit
      (by decide) (by decide) (by decide),
   (C4_extract_pagination_cases _).2.1 "3" "x" 3 .invalidDigit
      (by decide) (by decide) (by decide) (by decide),
   (C4_extract_pagination_cases _).2.2.1 "7" "5" 7 5
      (by decide) (by decide) (by decide) (by decide) (by decide),
   (C4_extract_pagination_cases _).2.2.2.1 "3" "5" 3 5
      (by decide) (by decide) (by decide) (by decide) (by decide),
   (C4_extract_pagination_cases _).2.2.2.2.1 "3" (by decide) (by decide),
   (C4_extract_pagination_cases _).2.2.2.2.2 "5" (by decide) (by decide)⟩

/-- C8 counterexample: on the EMPTY query mapping the validator, applied
directly, fails with `MissingParameter`, yet the listing succeeds with the
full snapshot — the handler only consults the validator when the mapping
is non-empty. -/
theorem C8_counterexample :
    extract_pagination [] = .error .MissingParameter
    ∧ (get_questions [] sampleStore).1 = .ok (values sampleStore) := by decide

/-- C8 amended: for every NON-EMPTY query-parameter mapping on which the
pagination validator fails, the listing returns exactly that error, the
store is unchanged, and the outcome does not depend on the store contents
(no snapshot is read, no window is computed). -/
theorem C8_validator_error_propagates (params : Params) (store : StoreMap) (e : Error)
    (hne : params ≠ []) (he : extract_pagination params = .error e) :
    get_questions params store = (.err e, store)
    ∧ (get_questions params store).1 = (get_questions params []).1 := by
  have hemp : params.isEmpty = false := by
    cases params with
    | nil => exact absurd rfl hne
    | cons a l => rfl
  constructor
  · simp [get_questions, hemp, he]
  · simp [get_questions, hemp, he]

theorem C8_witness :
    get_questions [("start", "3")] sampleStore = (.err .MissingParameter, sampleStore)
    ∧ (get_questions [("start", "3")] sampleStore).1
      = (get_questions [("start", "3")] []).1 :=
  C8_validator_error_propagates [("start", "3")] sampleStore .MissingParameter
    (by decide) (by decide)

/-- C1 counterexample: with the validated pair start=4 ≤ end=10 over a
snapshot of length 3 (so start ≥ L), the windowing does NOT return an
empty sequence: the slice `&res[4..3]` is out of bounds and the handler
aborts instead of completing. -/
theorem C1_counterexample :
    extract_pagination [("start", "4"), ("end", "10")] = .ok ⟨4, 10⟩
    ∧ (values sampleStore).length = 3
    ∧ (get_questions [("start", "4"), ("end", "10")] sampleStore).1
      = .indexOutOfBounds := by
  decide

/-- C1 amended: for a validated pagination pair over a snapshot of length
L with end > L, if start ≤ L the windowing completes without error and
returns the suffix from start, of length L − start (empty exactly when
start = L); but when start > L the slice is out of bounds and the handler
aborts rather than returning an empty sequence. -/
theorem C1_end_beyond_length (params : Params) (store : StoreMap) (p : Pagination)
    (h1 : extract_pagination params = .ok p)
    (h2 : (values store).length < p.pend) :
    (p.start ≤ (values store).length →
      (get_questions params store).1 = .ok ((values store).drop p.start)
      ∧ ((values store).drop p.start).length = (values store).length - p.start)
    ∧ (p.start = (values store).length → (get_questions params store).1 = .ok [])
    ∧ ((values store).length < p.start →
      (get_questions params store).1 = .indexOutOfBounds) := by
  rw [get_questions_ok_eval params store p h1, if_pos h2]
  refine ⟨?_, ?_, ?_⟩
  · intro h3
    have htake : ((values store).drop p.start).take ((values store).length - p.start)
        = (values store).drop p.start := by
      apply List.take_of_length_le
      rw [List.length_drop]
    rw [listSlice, if_pos ⟨h3, le_refl _⟩, htake]
    exact ⟨rfl, by rw [List.length_drop]⟩
  · intro h4
    have htake : ((values store).drop p.start).take ((values store).length - p.start)
        = (values store).drop p.start := by
      apply List.take_of_length_le
      rw [List.length_drop]
    rw [listSlice, if_pos ⟨le_of_eq h4, le_refl _⟩, htake, h4, List.drop_length]
  · intro h4
    have hcond : ¬ (p.start ≤ (values store).length
        ∧ (values store).length ≤ (values store).length) :=
      fun hc => absurd hc.1 (Nat.not_le.mpr h4)
    rw [listSlice, if_neg hcond]

theorem C1_witness :
    ((get_questions [("start", "1"), ("end", "10")] sampleStore).1
        = .ok ((values sampleStore).drop 1)
      ∧ ((values sampleStore).drop 1).length = (values sampleStore).length - 1)
    ∧ (get_questions [("start", "3"), ("end", "10")] sampleStore).1 = .ok []
    ∧ (get_questions [("start", "4"), ("end", "10")] sampleStore).1
        = .indexOutOfBounds :=
  ⟨(C1_end_beyond_length [("start", "1"), ("end", "10")] sampleStore ⟨1, 10⟩
      (by decide) (by decide)).1 (by decide),
   (C1_end_beyond_length [("start", "3"), ("end", "10")] sampleStore ⟨3, 10⟩
      (by decide) (by decide)).2.1 (by decide),
   (C1_end_beyond_length [("start", "4"), ("end", "10")] sampleStore ⟨4, 10⟩
      (by decide) (by decide)).2.2 (by decide)⟩

/-- C5: for a validated pagination pair with start ≤ end ≤ L, the listing
returns exactly the contiguous half-open window [start, end) of the
snapshot taken at call time, of length end − start. -/
theorem C5_in_range_window (params : Params) (store : StoreMap) (p : Pagination)
    (h1 : extract_pagination params = .ok p)
    (h2 : p.pend ≤ (values store).length) :
    (get_questions params store).1
      = .ok (((values store).drop p.start).take (p.pend - p.start))
    ∧ (((values store).drop p.start).take (p.pend - p.start)).length
      = p.pend - p.start := by
  have hse := extract_pagination_start_le params p h1
  rw [get_questions_ok_eval params store p h1, if_neg (Nat.not_lt.mpr h2)]
  rw [listSlice, if_pos ⟨hse, h2⟩]
  refine ⟨rfl, ?_⟩
  rw [List.length_take, List.length_drop]
  omega

theorem C5_witness :
    (get_questions [("start", "1"), ("end", "3")] sampleStore).1
      = .ok (((values sampleStore).drop 1).take 2)
    ∧ (((values sampleStore).drop 1).take 2).length = 2 :=
  C5_in_range_window [("start", "1"), ("end", "3")] sampleStore ⟨1, 3⟩
    (by decide) (by decide)

theorem containsKey_false_forall (s : StoreMap) (k : QuestionId)
    (hc : containsKey s k = false) : ∀ p ∈ s, p.1 ≠ k := by
  intro p hp he
  have hmem : containsKey s k = true := by
    unfold containsKey
    rw [List.any_eq_true]
    exact ⟨p, hp, by simp [he]⟩
  rw [hmem] at hc
  exact Bool.noConfusion hc

theorem containsKey_false_of_forall (s : StoreMap) (k : QuestionId)
    (h : ∀ p ∈ s, p.1 ≠ k) : containsKey s k = false := by
  unfold containsKey
  rw [List.any_eq_false]
  intro p hp
  simp [h p hp]

/-- In a coherent store with no entry keyed `k`, no stored question has id
`k`. -/
theorem values_filter_eq_nil (s : StoreMap) (k : QuestionId)
    (hco : Coherent s) (hc : containsKey s k = false) :
    (values s).filter (fun r => r.id == k) = [] := by
  rw [List.filter_eq_nil_iff]
  intro a ha
  obtain ⟨p, hp, hpa⟩ := List.mem_map.mp ha
  have h1 : p.1 = a.id := by rw [hco p hp, hpa]
  rw [beq_iff_eq]
  intro he
  exact containsKey_false_forall s k hc p hp (h1.trans he)

/-- Overwriting an existing key: the updated snapshot holds exactly one
question with the inserted id, namely the inserted question. -/
theorem filter_values_map_replace (s : StoreMap) (q : Question)
    (hco : Coherent s) (hnd : (keys s).Nodup) (hc : containsKey s q.id = true) :
    (values (s.map (fun p => if p.1 == q.id then (q.id, q) else p))).filter
      (fun r => r.id == q.id) = [q] := by
  induction s with
  | nil => simp [containsKey] at hc
  | cons p s ih =>
    have hnd2 : (keys s).Nodup := (List.nodup_cons.mp hnd).2
    have hnotmem : p.1 ∉ keys s := (List.nodup_cons.mp hnd).1
    have hco2 : Coherent s := fun p' hp' => hco p' (List.mem_cons_of_mem p hp')
    cases hkb : (p.1 == q.id) with
    | true =>
      have hkey : p.1 = q.id := by rwa [beq_iff_eq] at hkb
      have hmapid : s.map (fun p' => if p'.1 == q.id then (q.id, q) else p') = s := by
        have h1 : s.map (fun p' => if p'.1 == q.id then (q.id, q) else p')
            = s.map id := by
          apply List.map_congr_left
          intro p' hp'
          have hne : p'.1 ≠ q.id := fun he =>
            hnotmem (by rw [hkey, ← he]; exact List.mem_map_of_mem Prod.fst hp')
          simp [hne]
        rw [h1, List.map_id]
      have hcs : containsKey s q.id = false := by
        apply containsKey_false_of_forall
        intro p' hp' he
        exact hnotmem (by rw [hkey, ← he]; exact List.mem_map_of_mem Prod.fst hp')
      have hrest := values_filter_eq_nil s q.id hco2 hcs
      simp only [values] at hrest ⊢
      simp only [List.map_cons]
      rw [if_pos hkb, hmapid]
      rw [List.filter_cons, if_pos (beq_self_eq_true q.id), hrest]
    | false =>
      have hcs : containsKey s q.id = true := by
        unfold containsKey at hc ⊢
        rw [List.any_cons, hkb, Bool.false_or] at hc
        exact hc
      have hpid : (p.2.id == q.id) = false := by
        rw [beq_eq_false_iff_ne]
        intro he
        have h2 : (p.1 == q.id) = true :=
          beq_iff_eq.mpr ((hco p (List.mem_cons_self p s)).trans he)
        rw [hkb] at h2
        exact Bool.noConfusion h2
      have hres := ih hco2 hnd2 hcs
      simp only [values] at hres ⊢
      simp only [List.map_cons]
      rw [if_neg (by simp [hkb])]
      rw [List.filter_cons, if_neg (by simp [hpid]), hres]

/-- C6: in a well-formed store (coherent keys, no duplicate keys, both
structural invariants of the `HashMap`), after inserting any question the
immediately following unfiltered listing succeeds and contains exactly one
entry whose id is the inserted id, and that entry equals the inserted
question (all fields); if the id was already present the insert overwrote
in place, leaving the store size unchanged. -/
theorem C6_upsert_exactly_once (store : StoreMap) (q : Question)
    (hco : Coherent store) (hnd : (keys store).Nodup) :
    (get_questions [] (add_question store q).2).1 = .ok (values (add_question store q).2)
    ∧ (values (add_question store q).2).filter (fun r => r.id == q.id) = [q]
    ∧ (containsKey store q.id = true →
        (values (add_question store q).2).length = (values store).length) := by
  refine ⟨rfl, ?_, ?_⟩
  · show (values (insertQ store q.id q)).filter (fun r => r.id == q.id) = [q]
    unfold insertQ
    cases hc : containsKey store q.id with
    | true =>
      rw [if_pos rfl]
      exact filter_values_map_replace store q hco hnd hc
    | false =>
      rw [if_neg (fun he => Bool.noConfusion he)]
      have hnil := values_filter_eq_nil store q.id hco hc
      simp only [values, List.map_append, List.filter_append]
      simp only [values] at hnil
      rw [hnil]
      simp
  · intro hc
    show (values (insertQ store q.id q)).length = (values store).length
    unfold insertQ
    rw [if_pos hc]
    simp [values]

/-- A replacement payload reusing the id of `q1`. -/
def q1b : Question := ⟨⟨"1"⟩, "First Question, updated", "New content", none⟩

theorem C6_witness :
    (get_questions [] (add_question sampleStore q1b).2).1
      = .ok (values (add_question sampleStore q1b).2)
    ∧ (values (add_question sampleStore q1b).2).filter (fun r => r.id == q1b.id) = [q1b]
    ∧ (values (add_question sampleStore q1b).2).length = (values sampleStore).length :=
  have h := C6_upsert_exactly_once sampleStore q1b (by decide) (by decide)
  ⟨h.1, h.2.1, h.2.2 (by decide)⟩

/-- Inserting a question under its own id preserves key-value coherence. -/
theorem Coherent_insertQ (s : StoreMap) (q : Question) (hco : Coherent s) :
    Coherent (insertQ s q.id q) := by
  unfold insertQ
  split
  · intro p hp
    obtain ⟨p', hp', hfp⟩ := List.mem_map.mp hp
    cases hk : (p'.1 == q.id) with
    | true =>
      rw [if_pos hk] at hfp
      rw [← hfp]
    | false =>
      rw [if_neg (by simp [hk])] at hfp
      rw [← hfp]
      exact hco p' hp'
  · intro p hp
    rcases List.mem_append.mp hp with h | h
    · exact hco p h
    · have hpq : p = (q.id, q) := by simpa using h
      rw [hpq]

/-- C10: from any coherent store state, every store state reachable by a
sequence of insert operations is still coherent — each map key equals the
id of the question it maps to — so the ids of the questions returned by an
unfiltered listing are exactly the store's keys. -/
theorem C10_coherence_invariant (store : StoreMap) (qs : List Question)
    (hco : Coherent store) :
    Coherent (insertAll store qs)
    ∧ (values (insertAll store qs)).map Question.id = keys (insertAll store qs) := by
  have hmain : Coherent (insertAll store qs) := by
    induction qs generalizing store with
    | nil => exact hco
    | cons q qs ih =>
      show Coherent (insertAll (insertQ store q.id q) qs)
      exact ih _ (Coherent_insertQ store q hco)
  refine ⟨hmain, ?_⟩
  unfold values keys
  rw [List.map_map]
  exact List.map_congr_left (fun p hp => (hmain p hp).symm)

theorem C10_witness :
    Coherent (insertAll [] [q1, q2, q1b])
    ∧ (values (insertAll [] [q1, q2, q1b])).map Question.id
      = keys (insertAll [] [q1, q2, q1b]) :=
  C10_coherence_invariant [] [q1, q2, q1b] (by decide)
